import Mathlib

/-!
Verification development for the BDLS consensus message envelope
(`consensus/message.go`): the public-key axis codec, the coordinate type,
the domain-separated digest construction and the ECDSA sign/verify
protocol of `SignedProto`.

Byte sequences (`[]byte`) are modelled as `List Nat` whose elements are
byte values; Go's `big.Int` values are modelled as `Nat`.
-/

/-- ASCII bytes of a string (all characters involved are 7-bit ASCII,
so each UTF-8 byte is the character's code point). -/
def strBytes (s : String) : List Nat := s.data.map Char.toNat

/-- Go `SignaturePrefix` constant of message.go: the domain-separation
marker written first into the digest. -/
def SignaturePrefixStr : String := "==BDLS CONSENSUS MESSAGE=="

/-- Go `SizeAxis` constant of message.go: byte size of the X or Y axis of
a public key. -/
def SizeAxis : Nat := 32

/-- Minimal big-endian byte encoding of a natural number, as produced by
Go's `big.Int.Bytes` (no leading zero byte; `0` encodes to the empty slice). -/
def natToBytesBE (x : Nat) : List Nat := (Nat.digits 256 x).reverse

/-- Big-endian interpretation of a byte slice as a natural number, as done
by Go's `big.Int.SetBytes`. -/
def bytesToNatBE (l : List Nat) : Nat := Nat.ofDigits 256 l.reverse

/-- 4-byte little-endian serialization of a 32-bit unsigned integer, as
produced by `binary.Write(w, binary.LittleEndian, x)` for a `uint32`. -/
def uint32LE (x : Nat) : List Nat :=
  [x % 256, x / 256 % 256, x / 65536 % 256, x / 16777216 % 256]

/-- Go error values returned by this file's functions
(`ErrPubKey = errors.New("incorrect pubkey format")`). -/
inductive GoErr where
  | ErrPubKey
deriving DecidableEq

/-- Go `PubKeyAxis` ( `[SizeAxis]byte` ): an X or Y axis of a public key.
Modelled as a byte list; the Go array type fixes its length to 32,
which theorems carry as a hypothesis where it matters. -/
abbrev PubKeyAxis := List Nat

/-- The Go zero value of `PubKeyAxis`: 32 zero bytes. -/
def zeroAxis : PubKeyAxis := List.replicate SizeAxis 0

/-- Go `PubKeyAxis.Marshal`: returns the stored bytes verbatim and no error. -/
def PubKeyAxis.Marshal (t : PubKeyAxis) : List Nat × Option GoErr := (t, none)

/-- Go `PubKeyAxis.Unmarshal`, receiver-mutation modelled by returning the
new receiver value alongside the error:
rejects inputs longer than 32 bytes with `ErrPubKey`; otherwise copies
`data` into the last `len(data)` bytes of the receiver
(`off := 32 - len(data); copy((*t)[off:], data)`). -/
def PubKeyAxis.Unmarshal (t : PubKeyAxis) (data : List Nat) :
    Option GoErr × PubKeyAxis :=
  if 32 < data.length then (some GoErr.ErrPubKey, t)
  else (none, t.take (SizeAxis - data.length) ++ data)

/-- The canonical left-zero-padded 32-byte big-endian encoding of a
natural number (what `Unmarshal` of `natToBytesBE x` into a zeroed axis
produces). -/
def pad32 (x : Nat) : List Nat :=
  List.replicate (SizeAxis - (natToBytesBE x).length) 0 ++ natToBytesBE x

/-- Go `coordinate` ( `[2*SizeAxis]byte` ): X axis followed by Y axis. -/
abbrev coordinate := List Nat

/-- Go `coordinate.Equal`: true iff `x1` equals the first 32 bytes and `y1`
equals the last 32 bytes (`bytes.Equal(x1[:], c[:SizeAxis]) &&
bytes.Equal(y1[:], c[SizeAxis:])`). -/
def coordinate.Equal (c : coordinate) (x1 y1 : PubKeyAxis) : Bool :=
  decide (x1 = c.take SizeAxis) && decide (y1 = c.drop SizeAxis)

/-- Go `newCoordFromPubKey`: unmarshals the public key's X and Y big-endian
bytes into fresh zeroed axes and concatenates them; a `none` result
models the `panic(err)` taken when either `Unmarshal` fails. The public
key's components are modelled by their `big.Int` values. -/
def newCoordFromPubKey (X Y : Nat) : Option coordinate :=
  match PubKeyAxis.Unmarshal zeroAxis (natToBytesBE X) with
  | (some _, _) => none
  | (none, ax) =>
    match PubKeyAxis.Unmarshal zeroAxis (natToBytesBE Y) with
    | (some _, _) => none
    | (none, ay) => some (ax ++ ay)

section ByteLemmas

theorem bytesToNatBE_natToBytesBE (x : Nat) :
    bytesToNatBE (natToBytesBE x) = x := by
  simp [bytesToNatBE, natToBytesBE, Nat.ofDigits_digits]

theorem ofDigits_replicate_zero (k : Nat) :
    Nat.ofDigits 256 (List.replicate k 0) = 0 := by
  induction k with
  | zero => simp [Nat.ofDigits]
  | succ n ih => simp [List.replicate_succ, Nat.ofDigits_cons, ih]

theorem bytesToNatBE_zero_pad (k : Nat) (l : List Nat) :
    bytesToNatBE (List.replicate k 0 ++ l) = bytesToNatBE l := by
  simp [bytesToNatBE, List.reverse_append, Nat.ofDigits_append,
    ofDigits_replicate_zero]

theorem natToBytesBE_length_le {x k : Nat} (h : x < 256 ^ k) :
    (natToBytesBE x).length ≤ k := by
  rcases Nat.eq_zero_or_pos x with hx | hx
  · subst hx; simp [natToBytesBE]
  · by_contra hlen
    push_neg at hlen
    have h1 : 256 ^ (Nat.digits 256 x).length ≤ 256 * x :=
      Nat.base_pow_length_digits_le 256 x (by norm_num) hx.ne'
    have h2 : 256 ^ (k + 1) ≤ 256 ^ (Nat.digits 256 x).length := by
      apply Nat.pow_le_pow_right (by norm_num)
      simpa [natToBytesBE] using hlen
    have h3 : 256 ^ (k + 1) ≤ 256 * x := le_trans h2 h1
    rw [pow_succ, mul_comm] at h3
    have := Nat.le_of_mul_le_mul_left h3 (by norm_num)
    omega

theorem natToBytesBE_no_leading_zero (x : Nat) :
    (natToBytesBE x).head? ≠ some 0 := by
  rcases Nat.eq_zero_or_pos x with hx | hx
  · subst hx; simp [natToBytesBE]
  · have hx0 : x ≠ 0 := hx.ne'
    have hne : Nat.digits 256 x ≠ [] := Nat.digits_ne_nil_iff_ne_zero.mpr hx0
    have hlast : (Nat.digits 256 x).getLast hne ≠ 0 :=
      Nat.getLast_digit_ne_zero 256 hx0
    rw [natToBytesBE, List.head?_reverse,
      List.getLast?_eq_getLast_of_ne_nil hne]
    intro hcon
    exact hlast (Option.some_injective _ hcon)

theorem take_zeroAxis (k : Nat) (hk : k ≤ 32) :
    zeroAxis.take k = List.replicate k 0 := by
  simp only [zeroAxis, SizeAxis, List.take_replicate, Nat.min_eq_left hk]

theorem Unmarshal_ok (t : PubKeyAxis) (data : List Nat)
    (h : data.length ≤ 32) :
    PubKeyAxis.Unmarshal t data =
      (none, t.take (SizeAxis - data.length) ++ data) := by
  simp [PubKeyAxis.Unmarshal, Nat.not_lt.mpr h]

theorem Unmarshal_err (t : PubKeyAxis) (data : List Nat)
    (h : 32 < data.length) :
    PubKeyAxis.Unmarshal t data = (some GoErr.ErrPubKey, t) := by
  simp [PubKeyAxis.Unmarshal, h]

theorem Unmarshal_zeroAxis (data : List Nat) (h : data.length ≤ 32) :
    PubKeyAxis.Unmarshal zeroAxis data =
      (none, List.replicate (32 - data.length) 0 ++ data) := by
  rw [Unmarshal_ok _ _ h]
  rw [show SizeAxis - data.length = 32 - data.length from rfl]
  rw [take_zeroAxis _ (by omega)]

end ByteLemmas

/-- The signed consensus message envelope. Modelled from the spec: the
struct itself is produced by protobuf generation (message.pb.go, not part
of message.go); per the spec's wire format, `Version` is a fixed-width
32-bit unsigned integer and `X`, `Y` are `PubKeyAxis`, while `Message`,
`R`, `S` are variable-length byte slices. -/
structure SignedProto where
  Version : Nat
  X : PubKeyAxis
  Y : PubKeyAxis
  Message : List Nat
  R : List Nat
  S : List Nat

/-- State of a streaming hash accumulator: the bytes written so far.
Modelled from the spec: the repo's `crypto/blake2b` package (not part of
message.go) exposes a keyless 256-bit hash whose `Sum` digests the
concatenation of all written bytes; the compression function itself is
kept abstract as a parameter `H` of the operations below. -/
structure Blake2bState where
  data : List Nat

/-- Go `hash.Write`: appends bytes to the accumulator (writes to an
in-memory accumulator cannot fail, so no error case arises). -/
def blakeWrite (st : Blake2bState) (bs : List Nat) : Blake2bState :=
  ⟨st.data ++ bs⟩

/-- Go `hash.Sum(nil)`: applies the digest function to all accumulated bytes. -/
def blakeSum (H : List Nat → List Nat) (st : Blake2bState) : List Nat :=
  H st.data

/-- Go `SignedProto.Hash`: writes, in order, the signature prefix, the
version (4-byte little-endian), the X and Y axes, the message length
(4-byte little-endian) and the message into a fresh keyless BLAKE2b-256
accumulator and returns its digest. `H` is the abstract digest function. -/
def SignedProto.Hash (sp : SignedProto) (H : List Nat → List Nat) : List Nat :=
  let st := Blake2bState.mk []
  let st := blakeWrite st (strBytes SignaturePrefixStr)
  let st := blakeWrite st (uint32LE sp.Version)
  let st := blakeWrite st sp.X
  let st := blakeWrite st sp.Y
  let st := blakeWrite st (uint32LE sp.Message.length)
  let st := blakeWrite st sp.Message
  blakeSum H st

/-- Modelled from the spec: order of the secp256k1 group used as
`defaultCurve` (the repo's `crypto/secp256k1` package is not part of
message.go; the spec fixes "a single fixed named elliptic curve
(secp256k1-class)"). -/
def secpN : Nat :=
  115792089237316195423570985008687907852837564279074904382605163141518161494337

instance : NeZero secpN := ⟨by decide⟩

instance : Fact (1 < secpN) := ⟨by decide⟩

/-- Scalars modulo the group order. -/
abbrev Scalar := ZMod secpN

/-- Modelled from the spec: the prime-order cyclic group of the curve is
modelled through discrete logarithms — a point is identified with its
exponent with respect to the base point. -/
abbrev Point := Scalar

/-- The curve's base point `G` (exponent 1 in the discrete-log model). -/
def basePoint : Point := 1

/-- Scalar multiplication on the modelled group. -/
def ptMul (k : Scalar) (P : Point) : Point := k * P

/-- Point addition on the modelled group. -/
def ptAdd (P Q : Point) : Point := P + Q

/-- Modelled from the spec: the X coordinate of a point as a `big.Int`
value. In the discrete-log model the coordinate projection is an
arbitrary function into 256-bit integers; we take the canonical value of
the exponent. -/
def coordX (P : Point) : Nat := P.val

/-- Modelled from the spec: the Y coordinate of a point, see `coordX`. -/
def coordY (P : Point) : Nat := P.val

/-- Modelled from the spec: reconstruction of a public-key point from
its `(x, y)` coordinate values, as done by `ecdsa.Verify` on a key built
with `SetBytes`; the inverse of the modelled coordinate projection. -/
def pointFromCoords (x y : Nat) : Point := (x : Scalar)

/-- Go `hashToInt` of crypto/ecdsa: interprets the digest as a big-endian
integer, truncating to the byte length of the group order (32 bytes)
first; reduction modulo the order happens in the scalar arithmetic. -/
def hashToInt (h : List Nat) : Scalar := (bytesToNatBE (h.take 32) : Scalar)

/-- Modelled from the spec: `ecdsa.Sign` for the successful nonce `k`
(the library retries with a fresh random nonce while `r = 0` or `s = 0`):
`r` is the X coordinate of `k·G` reduced mod the order and
`s = k⁻¹(z + r·d)`; the two scalars are returned as `big.Int` values. -/
def ecdsaSign (d k z : Scalar) : Nat × Nat :=
  let R := ptMul k basePoint
  let r : Scalar := ((coordX R : Nat) : Scalar)
  let s : Scalar := k⁻¹ * (z + r * d)
  (r.val, s.val)

/-- Modelled from the spec: `ecdsa.Verify` — rejects `r` or `s` outside
`(0, n)`, computes `u1 = z·s⁻¹`, `u2 = r·s⁻¹`, forms `u1·G + u2·Q`,
rejects the point at infinity (exponent 0 in the model) and accepts iff
the point's X coordinate reduced mod the order equals `r`. -/
def ecdsaVerify (Q : Point) (z : Scalar) (rI sI : Nat) : Bool :=
  if rI = 0 ∨ secpN ≤ rI ∨ sI = 0 ∨ secpN ≤ sI then false
  else if ptAdd (ptMul (z * ((sI : Scalar))⁻¹) basePoint)
      (ptMul (((rI : Scalar)) * ((sI : Scalar))⁻¹) Q) = 0 then false
  else decide (coordX (ptAdd (ptMul (z * ((sI : Scalar))⁻¹) basePoint)
      (ptMul (((rI : Scalar)) * ((sI : Scalar))⁻¹) Q)) % secpN = rI)

/-- Modelled from the spec: `ProtocolVersion` is "a single fixed-width
integer baked in at build time" (its definition lies outside message.go). -/
def ProtocolVersion : Nat := 1

/-- Go `SignedProto.Sign`: serializes the inner message (`bts` stands for
the externally produced `proto.Marshal(m)` bytes), sets the version,
unmarshals the public key coordinates of `d·G` into the X and Y fields,
hashes the envelope and stores the minimal big-endian bytes of the two
signature scalars. `none` models the `panic(err)` branches; `k` is the
successful random nonce drawn inside `ecdsa.Sign`. -/
def SignedProto.Sign (sp : SignedProto) (H : List Nat → List Nat)
    (bts : List Nat) (d k : Scalar) : Option SignedProto :=
  let sp1 : SignedProto := { sp with Version := ProtocolVersion, Message := bts }
  match PubKeyAxis.Unmarshal sp1.X (natToBytesBE (coordX (ptMul d basePoint))) with
  | (some _, _) => none
  | (none, nX) =>
    match PubKeyAxis.Unmarshal sp1.Y (natToBytesBE (coordY (ptMul d basePoint))) with
    | (some _, _) => none
    | (none, nY) =>
      let sp2 : SignedProto := { sp1 with X := nX, Y := nY }
      let dig := sp2.Hash H
      let rs := ecdsaSign d k (hashToInt dig)
      some { sp2 with R := natToBytesBE rs.1, S := natToBytesBE rs.2 }

/-- Go `SignedProto.Verify`: recomputes the digest, rebuilds the public key
from the envelope's own X and Y bytes on the default curve and runs
ECDSA verification against the R and S bytes. -/
def SignedProto.Verify (sp : SignedProto) (H : List Nat → List Nat) : Bool :=
  let dig := sp.Hash H
  ecdsaVerify (pointFromCoords (bytesToNatBE sp.X) (bytesToNatBE sp.Y))
    (hashToInt dig) (bytesToNatBE sp.R) (bytesToNatBE sp.S)

/-- The envelope contents just before signing, for a freshly zeroed
envelope: version and message set, X and Y holding the canonical padded
coordinates of the signer's public key `d·G`, signature fields empty. -/
def signBody (bts : List Nat) (d : Scalar) : SignedProto :=
  { Version := ProtocolVersion
    X := pad32 (coordX (ptMul d basePoint))
    Y := pad32 (coordY (ptMul d basePoint))
    Message := bts
    R := []
    S := [] }

section HashLemmas

theorem hash_stream (sp : SignedProto) (H : List Nat → List Nat) :
    sp.Hash H =
      H (strBytes SignaturePrefixStr ++ uint32LE sp.Version ++ sp.X ++ sp.Y ++
        uint32LE sp.Message.length ++ sp.Message) := by
  simp [SignedProto.Hash, blakeWrite, blakeSum, List.append_assoc]

end HashLemmas

section ScalarLemmas

theorem natCast_val_self (a : Scalar) : ((a.val : Nat) : Scalar) = a :=
  ZMod.natCast_rightInverse a

theorem coord_bytes_length_le (P : Point) :
    (natToBytesBE (coordX P)).length ≤ 32 := by
  apply natToBytesBE_length_le
  calc coordX P < secpN := ZMod.val_lt P
    _ < 256 ^ 32 := by decide

theorem Unmarshal_coordX (t : PubKeyAxis) (P : Point) :
    PubKeyAxis.Unmarshal t (natToBytesBE (coordX P)) =
      (none, t.take (SizeAxis - (natToBytesBE (coordX P)).length)
        ++ natToBytesBE (coordX P)) :=
  Unmarshal_ok _ _ (coord_bytes_length_le P)

theorem Unmarshal_coordY (t : PubKeyAxis) (P : Point) :
    PubKeyAxis.Unmarshal t (natToBytesBE (coordY P)) =
      (none, t.take (SizeAxis - (natToBytesBE (coordY P)).length)
        ++ natToBytesBE (coordY P)) :=
  Unmarshal_ok _ _ (coord_bytes_length_le P)

end ScalarLemmas

theorem Sign_unfold (sp : SignedProto) (H : List Nat → List Nat)
    (bts : List Nat) (d k : Scalar) :
    sp.Sign H bts d k =
      some { Version := ProtocolVersion
             X := sp.X.take (SizeAxis - (natToBytesBE (coordX (ptMul d basePoint))).length)
                    ++ natToBytesBE (coordX (ptMul d basePoint))
             Y := sp.Y.take (SizeAxis - (natToBytesBE (coordY (ptMul d basePoint))).length)
                    ++ natToBytesBE (coordY (ptMul d basePoint))
             Message := bts
             R := natToBytesBE (ecdsaSign d k (hashToInt (SignedProto.Hash
                    { Version := ProtocolVersion
                      X := sp.X.take (SizeAxis - (natToBytesBE (coordX (ptMul d basePoint))).length)
                             ++ natToBytesBE (coordX (ptMul d basePoint))
                      Y := sp.Y.take (SizeAxis - (natToBytesBE (coordY (ptMul d basePoint))).length)
                             ++ natToBytesBE (coordY (ptMul d basePoint))
                      Message := bts
                      R := sp.R
                      S := sp.S } H))).1
             S := natToBytesBE (ecdsaSign d k (hashToInt (SignedProto.Hash
                    { Version := ProtocolVersion
                      X := sp.X.take (SizeAxis - (natToBytesBE (coordX (ptMul d basePoint))).length)
                             ++ natToBytesBE (coordX (ptMul d basePoint))
                      Y := sp.Y.take (SizeAxis - (natToBytesBE (coordY (ptMul d basePoint))).length)
                             ++ natToBytesBE (coordY (ptMul d basePoint))
                      Message := bts
                      R := sp.R
                      S := sp.S } H))).2 } := by
  simp only [SignedProto.Sign, Unmarshal_coordX, Unmarshal_coordY]

/-- Sample digest function standing in for keyless BLAKE2b-256 in
witnesses: constant 32-byte output. -/
def hashZeros : List Nat → List Nat := fun _ => List.replicate 32 0

/-- Sample envelope used by witnesses. -/
def spSampleA : SignedProto :=
  { Version := 7, X := List.replicate 32 0, Y := List.replicate 32 0,
    Message := [1, 2, 3], R := [], S := [] }

/-- C1: For every SignedProto envelope, `Hash` returns the 32-byte keyless
BLAKE2b-256 digest of the concatenation, in this exact order, of the fixed
ASCII prefix "==BDLS CONSENSUS MESSAGE==", the version serialized as a
fixed-width little-endian integer, the 32 bytes of X, the 32 bytes of Y,
the payload length as a 4-byte little-endian unsigned integer, and the raw
payload bytes (for any 32-byte-output digest function `H` standing for
keyless BLAKE2b-256). -/
theorem C1_hash_digest (H : List Nat → List Nat)
    (hH : ∀ l, (H l).length = 32) (sp : SignedProto) :
    (sp.Hash H).length = 32 ∧
      sp.Hash H = H (strBytes SignaturePrefixStr ++ uint32LE sp.Version ++
        sp.X ++ sp.Y ++ uint32LE sp.Message.length ++ sp.Message) := by
  refine ⟨?_, hash_stream sp H⟩
  rw [hash_stream sp H]
  exact hH _

theorem C1_hash_digest_witness :
    (∀ l, (hashZeros l).length = 32) ∧
      ((spSampleA.Hash hashZeros).length = 32 ∧
        spSampleA.Hash hashZeros = hashZeros (strBytes SignaturePrefixStr ++
          uint32LE spSampleA.Version ++ spSampleA.X ++ spSampleA.Y ++
          uint32LE spSampleA.Message.length ++ spSampleA.Message)) :=
  ⟨fun _ => by simp [hashZeros],
    C1_hash_digest hashZeros (fun _ => by simp [hashZeros]) spSampleA⟩

/-- C4: For every envelope, `Verify` returns a boolean equal to the ECDSA
verification of (r, s) decoded from the envelope's R and S bytes against
the recomputed digest and the public key reconstructed from the envelope's
own X and Y bytes; as a total function it never faults, and no
curve-membership check on (x, y) precedes the verification routine. -/
theorem C4_verify_characterization (H : List Nat → List Nat)
    (sp : SignedProto) :
    sp.Verify H = ecdsaVerify
      (pointFromCoords (bytesToNatBE sp.X) (bytesToNatBE sp.Y))
      (hashToInt (H (strBytes SignaturePrefixStr ++ uint32LE sp.Version ++
        sp.X ++ sp.Y ++ uint32LE sp.Message.length ++ sp.Message)))
      (bytesToNatBE sp.R) (bytesToNatBE sp.S) := by
  simp only [SignedProto.Verify, hash_stream]

/-- C5: For every byte sequence `b` with `0 ≤ len(b) ≤ 32`, decoding `b`
into a (fresh, zeroed) axis and then encoding it succeeds and yields a
32-byte buffer equal to `b` left-padded with zero bytes to 32 bytes. -/
theorem C5_axis_roundtrip (b : List Nat) (hb : b.length ≤ 32) :
    (PubKeyAxis.Unmarshal zeroAxis b).1 = none ∧
      (PubKeyAxis.Marshal (PubKeyAxis.Unmarshal zeroAxis b).2).1
        = List.replicate (32 - b.length) 0 ++ b ∧
      (PubKeyAxis.Marshal (PubKeyAxis.Unmarshal zeroAxis b).2).1.length = 32 := by
  rw [Unmarshal_zeroAxis b hb]
  refine ⟨rfl, rfl, ?_⟩
  simp only [PubKeyAxis.Marshal, List.length_append, List.length_replicate]
  omega

theorem C5_axis_roundtrip_witness :
    ([1, 2, 3] : List Nat).length ≤ 32 ∧
      ((PubKeyAxis.Unmarshal zeroAxis [1, 2, 3]).1 = none ∧
        (PubKeyAxis.Marshal (PubKeyAxis.Unmarshal zeroAxis [1, 2, 3]).2).1
          = List.replicate (32 - ([1, 2, 3] : List Nat).length) 0 ++ [1, 2, 3] ∧
        (PubKeyAxis.Marshal (PubKeyAxis.Unmarshal zeroAxis [1, 2, 3]).2).1.length
          = 32) :=
  ⟨by decide, C5_axis_roundtrip [1, 2, 3] (by decide)⟩

/-- C6: For every byte sequence longer than 32 bytes, axis decoding
returns the recoverable decode error ErrPubKey — never a fatal fault and
never a truncated result. -/
theorem C6_overflow_rejected (t : PubKeyAxis) (b : List Nat)
    (ht : t.length = 32) (hb : 32 < b.length) :
    (PubKeyAxis.Unmarshal t b).1 = some GoErr.ErrPubKey := by
  rw [Unmarshal_err t b hb]

theorem C6_overflow_rejected_witness :
    zeroAxis.length = 32 ∧ 32 < (List.replicate 33 1 : List Nat).length ∧
      (PubKeyAxis.Unmarshal zeroAxis (List.replicate 33 1)).1
        = some GoErr.ErrPubKey :=
  ⟨by decide, by decide,
    C6_overflow_rejected zeroAxis (List.replicate 33 1) (by decide) (by decide)⟩

/-- C7: newCoordFromPubKey aborts with a fatal fault (modelled as `none`)
exactly when the X or Y component's big-endian byte length exceeds 32;
otherwise it returns the 64-byte concatenation of the X axis followed by
the Y axis. -/
theorem C7_coord_from_pubkey (X Y : Nat) :
    newCoordFromPubKey X Y =
      if 32 < (natToBytesBE X).length ∨ 32 < (natToBytesBE Y).length
      then none
      else some (pad32 X ++ pad32 Y) := by
  by_cases hX : 32 < (natToBytesBE X).length
  · simp only [newCoordFromPubKey, Unmarshal_err _ _ hX]
    rw [if_pos (Or.inl hX)]
  · push_neg at hX
    by_cases hY : 32 < (natToBytesBE Y).length
    · simp only [newCoordFromPubKey, Unmarshal_zeroAxis _ hX,
        Unmarshal_err _ _ hY]
      rw [if_pos (Or.inr hY)]
    · push_neg at hY
      simp only [newCoordFromPubKey, Unmarshal_zeroAxis _ hX,
        Unmarshal_zeroAxis _ hY]
      rw [if_neg (not_or.mpr ⟨Nat.not_lt.mpr hX, Nat.not_lt.mpr hY⟩)]
      simp [pad32, SizeAxis]

/-- C8: For every 64-byte coordinate `c` and 32-byte axes `x1`, `y1`,
`Equal` returns true iff `x1` is byte-equal to the first 32 bytes of `c`
and `y1` is byte-equal to the last 32 bytes of `c`. -/
theorem C8_coordinate_equal (c : coordinate) (x1 y1 : PubKeyAxis)
    (hc : c.length = 64) (hx : x1.length = 32) (hy : y1.length = 32) :
    coordinate.Equal c x1 y1 = true ↔
      (x1 = c.take 32 ∧ y1 = c.drop 32) := by
  simp [coordinate.Equal, SizeAxis]

theorem C8_coordinate_equal_witness :
    (List.replicate 64 5 : List Nat).length = 64 ∧
      (List.replicate 32 5 : List Nat).length = 32 ∧
      (coordinate.Equal (List.replicate 64 5) (List.replicate 32 5)
          (List.replicate 32 5) = true ↔
        (List.replicate 32 5 = (List.replicate 64 5 : List Nat).take 32 ∧
          List.replicate 32 5 = (List.replicate 64 5 : List Nat).drop 32)) :=
  ⟨by decide, by decide,
    C8_coordinate_equal (List.replicate 64 5) (List.replicate 32 5)
      (List.replicate 32 5) (by decide) (by decide) (by decide)⟩

/-- C9: For every 32-byte receiver `t` and every `data` with
`len(data) ≤ 32`, Unmarshal copies `data` into the last `len(data)` bytes
of `t` and leaves the first `32 - len(data)` bytes unchanged — it does not
zero them. -/
theorem C9_unmarshal_keeps_head (t : PubKeyAxis) (data : List Nat)
    (ht : t.length = 32) (hd : data.length ≤ 32) :
    PubKeyAxis.Unmarshal t data
        = (none, t.take (32 - data.length) ++ data) ∧
      (PubKeyAxis.Unmarshal t data).2.take (32 - data.length)
        = t.take (32 - data.length) ∧
      (PubKeyAxis.Unmarshal t data).2.drop (32 - data.length) = data := by
  have h1 : PubKeyAxis.Unmarshal t data
      = (none, t.take (32 - data.length) ++ data) := Unmarshal_ok t data hd
  have hlen : (t.take (32 - data.length)).length = 32 - data.length := by
    simp only [List.length_take, ht]
    omega
  refine ⟨h1, ?_, ?_⟩
  · rw [h1]
    exact List.take_left' hlen
  · rw [h1]
    exact List.drop_left' hlen

theorem C9_unmarshal_keeps_head_witness :
    (List.replicate 32 9 : List Nat).length = 32 ∧
      ([4, 5] : List Nat).length ≤ 32 ∧
      (PubKeyAxis.Unmarshal (List.replicate 32 9) [4, 5]
          = (none, (List.replicate 32 9 : List Nat).take (32 - ([4, 5] : List Nat).length) ++ [4, 5]) ∧
        (PubKeyAxis.Unmarshal (List.replicate 32 9) [4, 5]).2.take
            (32 - ([4, 5] : List Nat).length)
          = (List.replicate 32 9 : List Nat).take (32 - ([4, 5] : List Nat).length) ∧
        (PubKeyAxis.Unmarshal (List.replicate 32 9) [4, 5]).2.drop
            (32 - ([4, 5] : List Nat).length) = [4, 5]) :=
  ⟨by decide, by decide,
    C9_unmarshal_keeps_head (List.replicate 32 9) [4, 5] (by decide) (by decide)⟩

/-- C10: For every 32-byte receiver `t` and every `data` longer than 32
bytes, Unmarshal returns the error before writing anything, leaving all
32 bytes of `t` exactly as they were (atomic failure). -/
theorem C10_unmarshal_atomic (t : PubKeyAxis) (data : List Nat)
    (ht : t.length = 32) (hd : 32 < data.length) :
    PubKeyAxis.Unmarshal t data = (some GoErr.ErrPubKey, t) := by
  rw [Unmarshal_err t data hd]

theorem C10_unmarshal_atomic_witness :
    (List.replicate 32 9 : List Nat).length = 32 ∧
      32 < (List.replicate 40 2 : List Nat).length ∧
      PubKeyAxis.Unmarshal (List.replicate 32 9) (List.replicate 40 2)
        = (some GoErr.ErrPubKey, List.replicate 32 9) :=
  ⟨by decide, by decide,
    C10_unmarshal_atomic (List.replicate 32 9) (List.replicate 40 2)
      (by decide) (by decide)⟩

section SignVerify

theorem take_replicate_zero (k : Nat) (hk : k ≤ 32) :
    (List.replicate 32 (0 : Nat)).take k = List.replicate k 0 :=
  take_zeroAxis k hk

theorem bytesToNatBE_pad32 (x : Nat) : bytesToNatBE (pad32 x) = x := by
  rw [pad32, bytesToNatBE_zero_pad, bytesToNatBE_natToBytesBE]

/-- Signing a fresh (zero-initialized) envelope produces the canonical
signed envelope: `signBody` with the two signature scalars' minimal
big-endian bytes filled in. -/
theorem Sign_fresh (H : List Nat → List Nat) (bts : List Nat)
    (sp0 : SignedProto) (hX : sp0.X = List.replicate 32 0)
    (hY : sp0.Y = List.replicate 32 0) (d k : Scalar) :
    sp0.Sign H bts d k = some
      { signBody bts d with
          R := natToBytesBE (ecdsaSign d k
                 (hashToInt ((signBody bts d).Hash H))).1
          S := natToBytesBE (ecdsaSign d k
                 (hashToInt ((signBody bts d).Hash H))).2 } := by
  rw [Sign_unfold, hX, hY]
  rw [take_replicate_zero
    (SizeAxis - (natToBytesBE (coordX (ptMul d basePoint))).length)
    (Nat.sub_le _ _)]
  rw [take_replicate_zero
    (SizeAxis - (natToBytesBE (coordY (ptMul d basePoint))).length)
    (Nat.sub_le _ _)]
  rfl

/-- Running `Verify` on the canonical signed envelope reduces to ECDSA
verification of the signature scalars against the signing digest and the
signer's public key. -/
theorem Verify_signed (H : List Nat → List Nat) (bts : List Nat)
    (d k : Scalar) :
    SignedProto.Verify
        { signBody bts d with
            R := natToBytesBE (ecdsaSign d k
                   (hashToInt ((signBody bts d).Hash H))).1
            S := natToBytesBE (ecdsaSign d k
                   (hashToInt ((signBody bts d).Hash H))).2 } H
      = ecdsaVerify (ptMul d basePoint) (hashToInt ((signBody bts d).Hash H))
          (ecdsaSign d k (hashToInt ((signBody bts d).Hash H))).1
          (ecdsaSign d k (hashToInt ((signBody bts d).Hash H))).2 := by
  show ecdsaVerify
      (pointFromCoords (bytesToNatBE (pad32 (coordX (ptMul d basePoint))))
        (bytesToNatBE (pad32 (coordY (ptMul d basePoint)))))
      (hashToInt ((signBody bts d).Hash H))
      (bytesToNatBE (natToBytesBE (ecdsaSign d k
        (hashToInt ((signBody bts d).Hash H))).1))
      (bytesToNatBE (natToBytesBE (ecdsaSign d k
        (hashToInt ((signBody bts d).Hash H))).2))
    = _
  rw [bytesToNatBE_pad32, bytesToNatBE_pad32, bytesToNatBE_natToBytesBE,
    bytesToNatBE_natToBytesBE]
  rw [pointFromCoords, coordX, natCast_val_self]

/-- Core ECDSA correctness in the modelled group: verifying the freshly
produced signature scalars against the signing digest and the signer's
public key succeeds, provided the nonce is a unit and `z + r·d` is a unit
(the conditions under which `ecdsa.Sign` stops retrying). -/
theorem ecdsa_roundtrip (d k z : Scalar) (hk : IsUnit k)
    (hu : IsUnit (z + ((coordX (ptMul k basePoint) : Nat) : Scalar) * d)) :
    ecdsaVerify (ptMul d basePoint) z (ecdsaSign d k z).1 (ecdsaSign d k z).2
      = true := by
  have hk0 : k ≠ 0 := hk.ne_zero
  have hrS : ((coordX (ptMul k basePoint) : Nat) : Scalar) = k := by
    rw [coordX, natCast_val_self, ptMul, basePoint, mul_one]
  rw [hrS] at hu
  have hkinv : IsUnit k⁻¹ :=
    isUnit_of_mul_eq_one _ k (ZMod.inv_mul_of_unit k hk)
  have hsu : IsUnit (k⁻¹ * (z + k * d)) := hkinv.mul hu
  have hs0 : k⁻¹ * (z + k * d) ≠ 0 := hsu.ne_zero
  have hsign : ecdsaSign d k z = ((k.val : Nat), (k⁻¹ * (z + k * d)).val) := by
    simp only [ecdsaSign, hrS]
  have hsinv : (k⁻¹ * (z + k * d))⁻¹ = (z + k * d)⁻¹ * k := by
    have hone : (k⁻¹ * (z + k * d)) * ((z + k * d)⁻¹ * k) = 1 := by
      have h1 : (z + k * d) * (z + k * d)⁻¹ = 1 := ZMod.mul_inv_of_unit _ hu
      have h2 : k⁻¹ * k = 1 := ZMod.inv_mul_of_unit k hk
      calc (k⁻¹ * (z + k * d)) * ((z + k * d)⁻¹ * k)
          = (k⁻¹ * k) * ((z + k * d) * (z + k * d)⁻¹) := by ring
        _ = 1 := by rw [h1, h2, one_mul]
    calc (k⁻¹ * (z + k * d))⁻¹
        = (k⁻¹ * (z + k * d))⁻¹ *
            ((k⁻¹ * (z + k * d)) * ((z + k * d)⁻¹ * k)) := by
          rw [hone, mul_one]
      _ = ((k⁻¹ * (z + k * d))⁻¹ * (k⁻¹ * (z + k * d))) *
            ((z + k * d)⁻¹ * k) := by ring
      _ = (z + k * d)⁻¹ * k := by
          rw [ZMod.inv_mul_of_unit _ hsu, one_mul]
  rw [hsign]
  have hc1 : ¬(k.val = 0 ∨ secpN ≤ k.val ∨ (k⁻¹ * (z + k * d)).val = 0 ∨
      secpN ≤ (k⁻¹ * (z + k * d)).val) := by
    push_neg
    refine ⟨?_, ZMod.val_lt k, ?_, ZMod.val_lt _⟩
    · simpa [ZMod.val_eq_zero] using hk0
    · simpa [ZMod.val_eq_zero] using hs0
  rw [ecdsaVerify, if_neg hc1]
  have hP : ptAdd (ptMul (z * (((k⁻¹ * (z + k * d)).val : Nat) : Scalar)⁻¹)
      basePoint) (ptMul (((k.val : Nat) : Scalar) *
        (((k⁻¹ * (z + k * d)).val : Nat) : Scalar)⁻¹) (ptMul d basePoint))
      = k := by
    rw [natCast_val_self, natCast_val_self, hsinv]
    rw [ptAdd, ptMul, ptMul, ptMul, basePoint, mul_one]
    calc z * ((z + k * d)⁻¹ * k) + k * ((z + k * d)⁻¹ * k) * (d * 1)
        = ((z + k * d)⁻¹ * (z + k * d)) * k := by ring
      _ = k := by rw [ZMod.inv_mul_of_unit _ hu, one_mul]
  rw [hP, if_neg hk0, coordX]
  rw [Nat.mod_eq_of_lt (ZMod.val_lt k)]
  simp

end SignVerify

/-- Fresh (Go zero-value) envelope used by the sign/verify witnesses. -/
def spSampleB : SignedProto :=
  { Version := 0, X := List.replicate 32 0, Y := List.replicate 32 0,
    Message := [], R := [], S := [] }

/-- C2: For every freshly generated key pair and every payload, signing
a (freshly constructed, zero-valued) envelope and then verifying that
same unmodified envelope returns true. The nonce `k` being a unit and
`z + r·d` being a unit are the side conditions under which the ECDSA
signing loop terminates with this nonce. -/
theorem C2_sign_verify (H : List Nat → List Nat) (bts : List Nat)
    (sp0 : SignedProto) (hX : sp0.X = List.replicate 32 0)
    (hY : sp0.Y = List.replicate 32 0) (d k : Scalar) (hk : IsUnit k)
    (hu : IsUnit (hashToInt ((signBody bts d).Hash H)
      + ((coordX (ptMul k basePoint) : Nat) : Scalar) * d)) :
    (sp0.Sign H bts d k).map (fun sp1 => sp1.Verify H) = some true := by
  rw [Sign_fresh H bts sp0 hX hY d k]
  simp only [Option.map_some']
  refine congrArg some ?_
  rw [Verify_signed H bts d k]
  exact ecdsa_roundtrip d k (hashToInt ((signBody bts d).Hash H)) hk hu

theorem C2_sign_verify_witness :
    spSampleB.X = List.replicate 32 0 ∧ spSampleB.Y = List.replicate 32 0 ∧
      IsUnit (1 : Scalar) ∧
      IsUnit (hashToInt ((signBody [] 1).Hash hashZeros)
        + ((coordX (ptMul 1 basePoint) : Nat) : Scalar) * 1) ∧
      (spSampleB.Sign hashZeros [] 1 1).map (fun sp1 => sp1.Verify hashZeros)
        = some true := by
  have h1 : (signBody [] 1).Hash hashZeros = List.replicate 32 0 := rfl
  have h2 : hashToInt (List.replicate 32 0) = 0 := by
    rw [hashToInt]
    rw [show (List.replicate 32 0 : List Nat).take 32 = List.replicate 32 0
      by simp]
    rw [show bytesToNatBE (List.replicate 32 0) = 0 by
      rw [bytesToNatBE, List.reverse_replicate]
      exact ofDigits_replicate_zero 32]
    simp
  have h3 : coordX (ptMul 1 basePoint) = 1 := by
    rw [coordX, ptMul, basePoint, mul_one, ZMod.val_one]
  have hu : IsUnit (hashToInt ((signBody [] 1).Hash hashZeros)
      + ((coordX (ptMul 1 basePoint) : Nat) : Scalar) * 1) := by
    rw [h1, h2, h3]
    simp
  exact ⟨rfl, rfl, isUnit_one, hu,
    C2_sign_verify hashZeros [] spSampleB rfl rfl 1 1 isUnit_one hu⟩

/-- C3: After Sign on a (freshly constructed, zero-valued) envelope, the
version field equals the protocol version constant, the X and Y fields
are the 32-byte left-zero-padded big-endian encodings of the private
key's public-key coordinates, and the R and S fields hold the minimal
(leading-zero-stripped) big-endian byte forms of the two ECDSA signature
scalars computed over the envelope's digest. -/
theorem C3_sign_fields (H : List Nat → List Nat) (bts : List Nat)
    (sp0 : SignedProto) (hX : sp0.X = List.replicate 32 0)
    (hY : sp0.Y = List.replicate 32 0) (d k : Scalar) :
    sp0.Sign H bts d k = some
      { Version := ProtocolVersion
        X := pad32 (coordX (ptMul d basePoint))
        Y := pad32 (coordY (ptMul d basePoint))
        Message := bts
        R := natToBytesBE (ecdsaSign d k
               (hashToInt ((signBody bts d).Hash H))).1
        S := natToBytesBE (ecdsaSign d k
               (hashToInt ((signBody bts d).Hash H))).2 } ∧
      (natToBytesBE (ecdsaSign d k
        (hashToInt ((signBody bts d).Hash H))).1).head? ≠ some 0 ∧
      (natToBytesBE (ecdsaSign d k
        (hashToInt ((signBody bts d).Hash H))).2).head? ≠ some 0 ∧
      bytesToNatBE (natToBytesBE (ecdsaSign d k
          (hashToInt ((signBody bts d).Hash H))).1)
        = (ecdsaSign d k (hashToInt ((signBody bts d).Hash H))).1 ∧
      bytesToNatBE (natToBytesBE (ecdsaSign d k
          (hashToInt ((signBody bts d).Hash H))).2)
        = (ecdsaSign d k (hashToInt ((signBody bts d).Hash H))).2 :=
  ⟨Sign_fresh H bts sp0 hX hY d k,
    natToBytesBE_no_leading_zero _, natToBytesBE_no_leading_zero _,
    bytesToNatBE_natToBytesBE _, bytesToNatBE_natToBytesBE _⟩

theorem C3_sign_fields_witness :
    spSampleB.X = List.replicate 32 0 ∧ spSampleB.Y = List.replicate 32 0 ∧
      (spSampleB.Sign hashZeros [9] 1 1 = some
        { Version := ProtocolVersion
          X := pad32 (coordX (ptMul 1 basePoint))
          Y := pad32 (coordY (ptMul 1 basePoint))
          Message := [9]
          R := natToBytesBE (ecdsaSign 1 1
                 (hashToInt ((signBody [9] 1).Hash hashZeros))).1
          S := natToBytesBE (ecdsaSign 1 1
                 (hashToInt ((signBody [9] 1).Hash hashZeros))).2 } ∧
        (natToBytesBE (ecdsaSign 1 1
          (hashToInt ((signBody [9] 1).Hash hashZeros))).1).head? ≠ some 0 ∧
        (natToBytesBE (ecdsaSign 1 1
          (hashToInt ((signBody [9] 1).Hash hashZeros))).2).head? ≠ some 0 ∧
        bytesToNatBE (natToBytesBE (ecdsaSign 1 1
            (hashToInt ((signBody [9] 1).Hash hashZeros))).1)
          = (ecdsaSign 1 1 (hashToInt ((signBody [9] 1).Hash hashZeros))).1 ∧
        bytesToNatBE (natToBytesBE (ecdsaSign 1 1
            (hashToInt ((signBody [9] 1).Hash hashZeros))).2)
          = (ecdsaSign 1 1 (hashToInt ((signBody [9] 1).Hash hashZeros))).2) :=
  ⟨rfl, rfl, C3_sign_fields hashZeros [9] spSampleB rfl rfl 1 1⟩
